import Mathlib

/-
Shallow embedding of the event-streaming transport core of the geck toolkit
(packages transport/stream and transport/stream/kafka), together with theorems
checking the behaviour of the embedded operations.

Go strings are modelled as lists of characters, Go errors as an inductive type,
Go maps as association lists (each key occurring at most once), and the
external broker client as an outcome oracle passed to each operation.
-/

namespace Geck

/-- Go strings, modelled as lists of characters. -/
abbrev GoStr := List Char

/-- Builds a `GoStr` from a Lean string literal. -/
def gs (s : String) : GoStr := s.data

/-- Go error values of the stream transport.  Named errors mirror the
`errors.New` values of `transport/stream/kafka/reader.go` and the sentinel
`kerr.OperationNotAttempted`; `msg` stands for any other error value and
`joined` for `errors.Join` of two errors. -/
inductive Err where
  | alreadyRegistered
  | eof
  | noHandlerFound
  | readerManagerClosed
  | readerManagerAlreadyStarted
  | opNotAttempted
  | invalidConsumerGroupName
  | missingRequiredField
  | canceled
  | msg (s : GoStr)
  | joined (primary secondary : Err)
deriving DecidableEq, Repr

/-- Association-list lookup for Go maps keyed by strings: the value stored
under `k`, if any. -/
def lookupKey {A : Type} (l : List (GoStr × A)) (k : GoStr) : Option A :=
  match l with
  | [] => none
  | (k2, v) :: rest => if k2 = k then some v else lookupKey rest k

/-- Association-list update for Go maps keyed by strings: map assignment
`m[k] = v` (replaces the entry if present, otherwise appends it). -/
def setKey {A : Type} (l : List (GoStr × A)) (k : GoStr) (v : A) : List (GoStr × A) :=
  match l with
  | [] => [(k, v)]
  | (k2, v2) :: rest => if k2 = k then (k, v) :: rest else (k2, v2) :: setKey rest k v

-- -- ConsumerGroup (transport/stream/kafka/consumer_group.go) --

/-- ConsumerGroup: hierarchical Kafka consumer-group identifier
(`transport/stream/kafka/consumer_group.go`). -/
structure ConsumerGroup where
  platform : GoStr
  service : GoStr
  task : GoStr
  event : GoStr
deriving DecidableEq, Repr

/-- ConsumerGroup.IsZero: true when a required field is empty. -/
def ConsumerGroup.IsZero (c : ConsumerGroup) : Bool :=
  c.platform.isEmpty || c.service.isEmpty || c.task.isEmpty

/-- NewConsumerGroup: fails when a required field is empty; the option
`WithConsumerGroupEvent` is modelled by the `event` argument (empty when the
option is not given). -/
def NewConsumerGroup (platform service task event : GoStr) : Except Err ConsumerGroup :=
  let group : ConsumerGroup := ⟨platform, service, task, []⟩
  if group.IsZero then .error .missingRequiredField
  else .ok { group with event := event }

/-- Separator used by `_groupNameWithEventFormat` between task and event. -/
def onSep : GoStr := gs "-on-"

/-- ConsumerGroup.String: canonical name, `platform.service.task` or
`platform.service.task-on-event`; empty for a zero group. -/
def ConsumerGroup.string (c : ConsumerGroup) : GoStr :=
  if c.IsZero then []
  else if c.event.isEmpty then
    c.platform ++ '.' :: c.service ++ '.' :: c.task
  else
    c.platform ++ '.' :: c.service ++ '.' :: c.task ++ onSep ++ c.event

/-- strings.Split(s, ".") of the Go standard library, for the one-character
separator used by `ParseConsumerGroup`. -/
def splitDot : GoStr → List GoStr
  | [] => [[]]
  | c :: rest =>
    if c = '.' then [] :: splitDot rest
    else
      match splitDot rest with
      | [] => [[c]]
      | g :: tl => (c :: g) :: tl

/-- ParseConsumerGroup: splits the name on dots, fails on fewer than 3 parts,
takes parts 0..2 as platform/service/task and part 3 as event when there are
exactly 4 parts. -/
def ParseConsumerGroup (groupName : GoStr) : Except Err ConsumerGroup :=
  let parts := splitDot groupName
  if parts.length < 3 then .error .invalidConsumerGroupName
  else
    .ok
      { platform := parts.getD 0 []
        service := parts.getD 1 []
        task := parts.getD 2 []
        event := if parts.length = 4 then parts.getD 3 [] else [] }

-- -- Header (transport/stream/message.go, net/textproto) --

/-- Valid MIME header-field bytes of Go `net/textproto` (`isTokenTable`):
ASCII letters, digits, and the specials listed by their ASCII codes. -/
def validHeaderFieldChar (c : Char) : Bool :=
  c.isAlphanum || [33, 35, 36, 37, 38, 39, 42, 43, 45, 46, 94, 95, 96, 124, 126].contains c.toNat

/-- One character of MIME canonicalization: uppercase at the start of a word,
lowercase elsewhere. -/
def canonStep (upper : Bool) (c : Char) : Char :=
  if upper && c.isLower then c.toUpper
  else if !upper && c.isUpper then c.toLower
  else c

/-- Case transformation of `CanonicalMIMEHeaderKey`: a word starts at the
beginning and after each hyphen. -/
def canonRun : Bool → GoStr → GoStr
  | _, [] => []
  | upper, c :: rest =>
    let c2 := canonStep upper c
    c2 :: canonRun (c2 == '-') rest

/-- CanonicalMIMEHeaderKey of Go `net/textproto`: keys containing an invalid
header-field byte are returned unchanged, all other keys are case-normalized
word by word. -/
def canonicalMIMEHeaderKey (k : GoStr) : GoStr :=
  if k.all validHeaderFieldChar then canonRun true k else k

/-- stream.Header: Go `map[string][]string`, modelled as an association list
in which each key occurs at most once. -/
abbrev Header := List (GoStr × List GoStr)

/-- Header.Set: `textproto.MIMEHeader.Set`, which stores the single value
under the canonicalized key, dropping previous values. -/
def Header.set (h : Header) (k v : GoStr) : Header :=
  setKey h (canonicalMIMEHeaderKey k) [v]

/-- Header.Add: `textproto.MIMEHeader.Add`, which appends the value to the
list stored under the canonicalized key. -/
def Header.add (h : Header) (k v : GoStr) : Header :=
  let ck := canonicalMIMEHeaderKey k
  setKey h ck ((lookupKey h ck).getD [] ++ [v])

/-- Header.Values: `textproto.MIMEHeader.Values`, the full value list of the
canonicalized key (empty when absent). -/
def Header.values (h : Header) (k : GoStr) : List GoStr :=
  (lookupKey h (canonicalMIMEHeaderKey k)).getD []

/-- Header.Get: `textproto.MIMEHeader.Get`, the first value of the
canonicalized key (empty when absent). -/
def Header.get (h : Header) (k : GoStr) : GoStr :=
  match (lookupKey h (canonicalMIMEHeaderKey k)).getD [] with
  | [] => []
  | v :: _ => v

/-- marshalHeaders of `transport/stream/kafka` (writer side): one broker
record header per map key, whose value is `headers.Get(k)`. -/
def marshalHeaders (h : Header) : List (GoStr × GoStr) :=
  h.map (fun p => (p.1, Header.get h p.1))

-- -- Messages and records --

/-- stream.Message: key, header and payload of an outbound message. -/
structure Message where
  key : GoStr
  header : Header
  data : GoStr
deriving DecidableEq, Repr

/-- kgo.Record, as used by the reader manager and the dead-letter
interceptor: topic, partition, offset, key, value and broker headers. -/
structure KRecord where
  topic : GoStr
  partition : Int
  offset : Int
  key : GoStr
  value : GoStr
  headers : List (GoStr × GoStr)
deriving DecidableEq, Repr

-- -- Writer strategies (transport/stream/kafka writer file) --

/-- FirstErr of a `kgo.ProduceResults`: the first non-nil per-record error,
in submission order. -/
def firstErr (results : List (Option Err)) : Option Err :=
  results.findSome? id

/-- SyncWriter.Write: one synchronous produce; the broker outcome for the
record is returned directly. -/
def syncWrite (ack : Message → Option Err) (m : Message) : Option Err :=
  ack m

/-- SyncWriter.WriteBatch: produce all records synchronously; on the first
non-nil error return it with an accepted count of 0, otherwise return the
full record count. -/
def syncWriteBatch (ack : Message → Option Err) (ms : List Message) : Nat × Option Err :=
  match firstErr (ms.map ack) with
  | some e => (0, some e)
  | none => (ms.length, none)

/-- AsyncWriter.Write: fire-and-forget produce; the per-record completion
callback trace is returned alongside the (always nil) error. -/
def asyncWrite (ack : Message → Option Err) (m : Message) :
    Option Err × List (Message × Option Err) :=
  (none, [(m, ack m)])

/-- AsyncWriter.WriteBatch: fire-and-forget produce of every record; returns
`(0, nil)` and the per-record completion callback trace. -/
def asyncWriteBatch (ack : Message → Option Err) (ms : List Message) :
    (Nat × Option Err) × List (Message × Option Err) :=
  ((0, none), ms.map (fun m => (m, ack m)))

/-- Broker calls made by `TransactionalWriter.writeInTransaction`. -/
inductive TxCall where
  | beginTxn
  | produceSync
  | flush
  | endTxnCommit
  | abortBufferedRecords
  | endTxnAbort
deriving DecidableEq, Repr

/-- Outcomes the broker client yields to one `writeInTransaction` call:
`produceErrs` are the per-record results of the inner `ProduceSync`. -/
structure TxBroker where
  beginErr : Option Err
  produceErrs : List (Option Err)
  flushErr : Option Err
  commitErr : Option Err
  abortBufferedErr : Option Err
  endAbortErr : Option Err
deriving Repr

/-- TransactionalWriter.writeInTransaction: begin, produce, flush, try to
commit; a commit failure equal to `OperationNotAttempted` is returned as-is,
any other commit failure leads to `AbortBufferedRecords` and
`EndTransaction(TryAbort)`.  Returns the ordered trace of broker calls made
and the error returned to the caller. -/
def writeInTransaction (b : TxBroker) : List TxCall × Option Err :=
  match b.beginErr with
  | some e => ([.beginTxn], some e)
  | none =>
    match firstErr b.produceErrs with
    | some e => ([.beginTxn, .produceSync], some e)
    | none =>
      match b.flushErr with
      | some e => ([.beginTxn, .produceSync, .flush], some e)
      | none =>
        match b.commitErr with
        | none => ([.beginTxn, .produceSync, .flush, .endTxnCommit], none)
        | some e =>
          if e = .opNotAttempted then
            ([.beginTxn, .produceSync, .flush, .endTxnCommit], some e)
          else
            match b.abortBufferedErr with
            | some e2 =>
              ([.beginTxn, .produceSync, .flush, .endTxnCommit, .abortBufferedRecords], some e2)
            | none =>
              ([.beginTxn, .produceSync, .flush, .endTxnCommit, .abortBufferedRecords,
                .endTxnAbort], b.endAbortErr)

/-- TransactionalWriter.Write: a single-record transaction; returns the
error of `writeInTransaction`. -/
def txWrite (b : TxBroker) : Option Err :=
  (writeInTransaction b).2

/-- TransactionalWriter.WriteBatch: an n-record transaction; returns 0 with
the error on failure, the record count on success. -/
def txWriteBatch (b : TxBroker) (n : Nat) : Nat × Option Err :=
  match (writeInTransaction b).2 with
  | some e => (0, some e)
  | none => (n, none)

-- -- Interceptors --

/-- lo.CoalesceOrEmpty for strings: the first argument when non-empty,
otherwise the second. -/
def coalesceOrEmpty (a b : GoStr) : GoStr :=
  if a.isEmpty then b else a

/-- Header key added by the dead-letter interceptor. -/
def originalTopicKey : GoStr := gs "Original-Topic"

/-- Topic suffix used when no dead-letter topic is configured. -/
def dlqSuffix : GoStr := gs "-dlq"

/-- Record re-published by the dead-letter interceptor: the source record
with an appended `Original-Topic` header and the topic replaced by the
configured one (or the source topic suffixed with `-dlq`). -/
def dlqRecord (topic : GoStr) (msg : KRecord) : KRecord :=
  { msg with
    headers := msg.headers ++ [(originalTopicKey, msg.topic)]
    topic := coalesceOrEmpty topic (msg.topic ++ dlqSuffix) }

/-- UseDeadLetter of `transport/stream/kafka/interceptor/resilient.go`:
skipped records go straight to the handler; on handler success nothing else
happens; on handler failure the record is synchronously re-published to the
dead-letter topic, a republish failure being joined with the handler error.
Returns the error surfaced upward and the list of re-published records. -/
def useDeadLetter (produceSync : KRecord → Option Err) (skip : KRecord → Bool)
    (topic : GoStr) (next : KRecord → Option Err) (msg : KRecord) :
    Option Err × List KRecord :=
  if skip msg then (next msg, [])
  else
    match next msg with
    | none => (none, [])
    | some err =>
      let msg2 := dlqRecord topic msg
      match produceSync msg2 with
      | some errProduce => (some (.joined err errProduce), [msg2])
      | none => (some err, [msg2])

/-- Outcome of one Go handler invocation: a normal return carrying the
returned error value, or a panic carrying the panic value. -/
inductive HandlerOutcome where
  | ok (err : Option Err)
  | panicked (v : GoStr)
deriving DecidableEq, Repr

/-- One slog entry. -/
structure LogEntry where
  level : GoStr
  message : GoStr
deriving DecidableEq, Repr

/-- NewRecoverInterceptor of `transport/stream/reader.go`: a deferred
`recover` turns a panic of the wrapped handler into a logged event, after
which the function returns the zero value of its unnamed error result.
Returns the outcome surfaced to the caller and the log trace. -/
def recoverInterceptor (next : Message → HandlerOutcome) (m : Message) :
    HandlerOutcome × List LogEntry :=
  match next m with
  | .ok e => (.ok e, [])
  | .panicked _ => (.ok none, [⟨gs "ERROR", gs "panic recovered"⟩])

-- -- ReaderManager (transport/stream/kafka/reader.go) --

/-- readerManagerOptions: configuration fields of the reader manager
(`baseOpts` and the error-handler function are opaque to the model; there is
no commit-policy field). -/
structure ReaderManagerOptions where
  groupID : GoStr
  workerPoolSize : Int
  pollBatchSize : Int
  pollInterval : Int
  handlerTimeout : Int
deriving DecidableEq, Repr

/-- Mutable state of a `ChannelReaderManager` relevant to registration:
the topic-to-handler map, the set of topics owning a dedicated group client,
and the lifecycle flags. -/
structure MgrState (H : Type) where
  topicHandlerMap : List (GoStr × H)
  groupClientTopics : List GoStr
  alreadyStarted : Bool
  isClosed : Bool

/-- ChannelReaderManager.Register: rejects calls after Start or Close and
duplicate topics; otherwise stores the handler and, for a non-zero consumer
group, creates a dedicated group client unless the topic already has one
(`newGroupClientErr` is the outcome of `kgo.NewClient`).  Returns the error
and the resulting state. -/
def register {H : Type} (s : MgrState H) (name : GoStr) (handler : H)
    (group : ConsumerGroup) (newGroupClientErr : Option Err) : Option Err × MgrState H :=
  if s.alreadyStarted then (some .readerManagerAlreadyStarted, s)
  else if s.isClosed then (some .readerManagerClosed, s)
  else if (lookupKey s.topicHandlerMap name).isSome then (some .alreadyRegistered, s)
  else
    let s1 := { s with topicHandlerMap := s.topicHandlerMap ++ [(name, handler)] }
    if group.IsZero then (none, s1)
    else if s1.groupClientTopics.contains name then (none, s1)
    else
      match newGroupClientErr with
      | some e => (some e, s1)
      | none => (none, { s1 with groupClientTopics := s1.groupClientTopics ++ [name] })

/-- processRecord: the worker body — look up the handler of the record topic
(reporting `ErrNoHandlerFound` when absent) and run it. -/
def processRecord (handlers : List (GoStr × (KRecord → Option Err))) (r : KRecord) :
    Option Err :=
  match lookupKey handlers r.topic with
  | none => some .noHandlerFound
  | some f => f r

/-- Broker commit calls offered by the client inside `startPoller`. -/
inductive CommitCall where
  | commitUncommittedOffsets
  | commitRecords (records : List KRecord)
deriving DecidableEq, Repr

/-- Record offsets a commit call marks as processed, out of a polled batch:
`CommitUncommittedOffsets` covers the whole batch. -/
def committedRecords (call : CommitCall) (batch : List KRecord) : List KRecord :=
  match call with
  | .commitUncommittedOffsets => batch
  | .commitRecords rs => rs

/-- Denotation of one non-empty-batch iteration of `startPoller` (lines
251-263 of `transport/stream/kafka/reader.go`): every record is dispatched
and processed, and after the in-flight counter drains the poller always
issues `CommitUncommittedOffsets`, independent of per-record outcomes and of
the construction-time options.  Returns the per-record outcomes and the
commit call made. -/
def pollBatchIteration (opts : ReaderManagerOptions)
    (handlers : List (GoStr × (KRecord → Option Err))) (batch : List KRecord) :
    List (KRecord × Option Err) × CommitCall :=
  (batch.map (fun r => (r, processRecord handlers r)), .commitUncommittedOffsets)

-- -- Batch dispatch machine (startPoller lines 251-263) --

/-- State of one polled batch inside `startPoller`: records not yet sent to
the worker channel, records sent but not yet finished (`inFlightProcs`
counts `pending ++ running`), finished records, and whether the offsets of
the batch have been committed. -/
structure PollState (R : Type) where
  pending : List R
  running : List R
  done : List R
  committed : Bool

/-- Initial batch state: the counter was incremented by the record count;
nothing is dispatched or finished yet. -/
def initPollState {R : Type} (batch : List R) : PollState R :=
  ⟨batch, [], [], false⟩

/-- Interleaved steps of the poller goroutine and the worker: dispatch of
the next record to the channel, completion of any running record (handler
returned or the record was skipped — both call `Done`), and the offset
commit, which `inFlightProcs.Wait()` enables only once no record is pending
or running. -/
inductive PollStep {R : Type} : PollState R → PollState R → Prop where
  | dispatch (r : R) (rest running done : List R) :
      PollStep ⟨r :: rest, running, done, false⟩ ⟨rest, running ++ [r], done, false⟩
  | complete (l1 : List R) (r : R) (l2 : List R) (pending done : List R) :
      PollStep ⟨pending, l1 ++ r :: l2, done, false⟩ ⟨pending, l1 ++ l2, done ++ [r], false⟩
  | commit (done : List R) :
      PollStep ⟨[], [], done, false⟩ ⟨[], [], done, true⟩

-- -- Concrete sample data --

/-- Message with empty key, header and payload. -/
def emptyMsg : Message := ⟨[], [], []⟩

/-- Message with the given key and empty header and payload. -/
def mkMsg (k : String) : Message := ⟨gs k, [], []⟩

/-- Broker behaviour rejecting exactly the message keyed `bad`. -/
def ackRejectBad : Message → Option Err :=
  fun m => if m.key = gs "bad" then some (.msg (gs "rejected")) else none

/-- Five sample messages, the third of which `ackRejectBad` rejects. -/
def fiveMessages : List Message :=
  [mkMsg "m1", mkMsg "m2", mkMsg "bad", mkMsg "m4", mkMsg "m5"]

/-- Record of the `orders` topic at the given offset. -/
def ordersRec (o : Int) : KRecord := ⟨gs "orders", 0, o, gs "k", gs "v", []⟩

/-- Batch of three `orders` records at offsets 1, 2, 3. -/
def ordersBatch : List KRecord := [ordersRec 1, ordersRec 2, ordersRec 3]

/-- Handler map for topic `orders` whose handler errors exactly on the
record at offset 2. -/
def handlersOrders : List (GoStr × (KRecord → Option Err)) :=
  [(gs "orders", fun r => if r.offset = 2 then some (.msg (gs "handler failed")) else none)]

/-- Reader-manager options carrying the documented defaults (pool size 50,
batch size 100, intervals in nanoseconds). -/
def defaultReaderOpts : ReaderManagerOptions :=
  ⟨[], 50, 100, 500000000, 30000000000⟩

-- -- Lemmas on splitting --

/-- Splitting a dot-free string yields that string as the only part. -/
theorem splitDot_no_dot (a : GoStr) (h : '.' ∉ a) : splitDot a = [a] := by
  induction a with
  | nil => rfl
  | cons c rest ih =>
    have hc : ¬ c = '.' := fun hc => h (by simp [hc])
    have hr : '.' ∉ rest := fun hm => h (List.mem_cons_of_mem c hm)
    simp [splitDot, hc, ih hr]

/-- Splitting peels off a leading dot-free segment. -/
theorem splitDot_append (a s : GoStr) (h : '.' ∉ a) :
    splitDot (a ++ '.' :: s) = a :: splitDot s := by
  induction a with
  | nil => simp [splitDot]
  | cons c rest ih =>
    have hc : ¬ c = '.' := fun hc => h (by simp [hc])
    have hr : '.' ∉ rest := fun hm => h (List.mem_cons_of_mem c hm)
    simp [splitDot, hc, ih hr]

-- -- Claim theorems --

/-- Claim C4 (corrected): `ParseConsumerGroup "a.b.c"` yields platform `a`,
service `b`, task `c`; `ParseConsumerGroup "a.b"` fails; and for every valid
group without an event whose fields are dot-free, `String` is the exact
inverse of parse.  (For groups with an event the inverse fails, since the
canonical form separates the event with `-on-`, not a dot — see the
counterexample.) -/
theorem c4_consumer_group_roundtrip :
    ParseConsumerGroup (gs "a.b.c") = .ok ⟨gs "a", gs "b", gs "c", []⟩ ∧
    ParseConsumerGroup (gs "a.b") = .error .invalidConsumerGroupName ∧
    ∀ g : ConsumerGroup, g.IsZero = false → g.event = [] →
      '.' ∉ g.platform → '.' ∉ g.service → '.' ∉ g.task →
      ParseConsumerGroup g.string = .ok g := by
  refine ⟨rfl, rfl, ?_⟩
  intro g hz he hp hs ht
  have hstring : g.string = g.platform ++ '.' :: (g.service ++ '.' :: g.task) := by
    simp [ConsumerGroup.string, hz, he]
  have hsplit : splitDot g.string = [g.platform, g.service, g.task] := by
    rw [hstring, splitDot_append _ _ hp, splitDot_append _ _ hs, splitDot_no_dot _ ht]
  cases g with
  | mk p s t e =>
    simp only at hsplit
    simp [ParseConsumerGroup, hsplit]
    exact he

/-- Claim C4 counterexample: for the group (a, b, c, event d) the canonical
string is `a.b.c-on-d`, which parses back to task `c-on-d` with no event —
parse is not the inverse of String on the 4-segment (event) form. -/
theorem c4_counterexample :
    ParseConsumerGroup (ConsumerGroup.string ⟨gs "a", gs "b", gs "c", gs "d"⟩) =
      .ok ⟨gs "a", gs "b", gs "c-on-d", []⟩ ∧
    (⟨gs "a", gs "b", gs "c-on-d", []⟩ : ConsumerGroup) ≠ ⟨gs "a", gs "b", gs "c", gs "d"⟩ :=
  ⟨rfl, by decide⟩

/-- Claim C4 witness: the inverse law at the concrete group (x, y, z). -/
theorem c4_witness :
    ConsumerGroup.IsZero ⟨gs "x", gs "y", gs "z", []⟩ = false ∧
    ParseConsumerGroup (ConsumerGroup.string ⟨gs "x", gs "y", gs "z", []⟩) =
      .ok ⟨gs "x", gs "y", gs "z", []⟩ :=
  ⟨by decide,
    c4_consumer_group_roundtrip.2.2 ⟨gs "x", gs "y", gs "z", []⟩ (by decide) rfl
      (by decide) (by decide) (by decide)⟩

-- -- Lemmas on association lists --

/-- After a map assignment, looking up the assigned key yields the assigned
value. -/
theorem lookupKey_setKey_self {A : Type} (l : List (GoStr × A)) (k : GoStr) (v : A) :
    lookupKey (setKey l k v) k = some v := by
  induction l with
  | nil => simp [setKey, lookupKey]
  | cons p rest ih =>
    rcases p with ⟨k2, v2⟩
    by_cases h : k2 = k
    · simp [setKey, lookupKey, h]
    · simp [setKey, lookupKey, h, ih]

/-- Appending a fresh key to a map makes it found by lookup. -/
theorem lookupKey_append_fresh {A : Type} (l : List (GoStr × A)) (k : GoStr) (v : A)
    (h : lookupKey l k = none) : lookupKey (l ++ [(k, v)]) k = some v := by
  induction l with
  | nil => simp [lookupKey]
  | cons p rest ih =>
    rcases p with ⟨k2, v2⟩
    by_cases hk : k2 = k
    · simp [lookupKey, hk] at h
    · simp only [lookupKey, hk, List.cons_append, if_false] at h ⊢
      exact ih h

/-- On a map with no duplicated key, filtering for a stored key yields
exactly its entry. -/
theorem filter_eq_of_lookup_nodup {A : Type} (l : List (GoStr × A)) (k : GoStr) (v : A)
    (hnd : (l.map Prod.fst).Nodup) (hl : lookupKey l k = some v) :
    l.filter (fun p => p.1 == k) = [(k, v)] := by
  induction l with
  | nil => simp [lookupKey] at hl
  | cons p rest ih =>
    rcases p with ⟨k2, v2⟩
    simp only [List.map_cons, List.nodup_cons] at hnd
    by_cases hk : k2 = k
    · subst hk
      simp only [lookupKey, if_true, eq_self_iff_true, if_pos, Option.some.injEq] at hl
      subst hl
      have hfilter : rest.filter (fun p => p.1 == k2) = [] := by
        rw [List.filter_eq_nil_iff]
        intro p hp hbeq
        exact hnd.1 (by
          have : p.1 = k2 := by simpa using hbeq
          exact this ▸ List.mem_map_of_mem Prod.fst hp)
      simp [List.filter, hfilter]
    · simp only [lookupKey, if_neg hk] at hl
      have : ((k2, v2).1 == k) = false := by simpa using hk
      simp [List.filter, this, ih hnd.2 hl]

/-- Claim C8 (corrected): the stream Header is a multi-map keyed by the MIME
canonical form of the key: Set replaces all values of the canonicalized key
by the single given value, Add appends to them, Get returns the first value
(empty when absent), Values returns all values in insertion order, and two
keys with the same canonical form (in particular keys differing only in
letter case, when made of valid token characters) address the same entry. -/
theorem c8_header_multimap :
    (∀ (h : Header) (k v : GoStr), Header.values (Header.set h k v) k = [v]) ∧
    (∀ (h : Header) (k v : GoStr),
      Header.values (Header.add h k v) k = Header.values h k ++ [v]) ∧
    (∀ (h : Header) (k : GoStr), Header.get h k = (Header.values h k).headD []) ∧
    (∀ (h : Header) (k1 k2 : GoStr),
      canonicalMIMEHeaderKey k1 = canonicalMIMEHeaderKey k2 →
      Header.values h k1 = Header.values h k2) := by
  refine ⟨?_, ?_, ?_, ?_⟩
  · intro h k v
    simp [Header.values, Header.set, lookupKey_setKey_self]
  · intro h k v
    simp [Header.values, Header.add, lookupKey_setKey_self]
  · intro h k
    cases hv : (lookupKey h (canonicalMIMEHeaderKey k)).getD [] <;>
      simp [Header.get, Header.values, hv]
  · intro h k1 k2 hc
    simp [Header.values, hc]

/-- Claim C8 counterexample: after `Set("foo", "v")` the lookup `Get("FOO")`
returns `v` — keys that differ only in letter case reach the same entry, so
the map is not case-sensitive. -/
theorem c8_counterexample :
    Header.get (Header.set [] (gs "foo") (gs "v")) (gs "FOO") = gs "v" ∧
    Header.get (Header.set [] (gs "foo") (gs "v")) (gs "FOO") ≠ [] := by
  constructor
  · rfl
  · decide

/-- Claim C8 witness: `foo` and `FOO` share the canonical form `Foo`, hence
the same value list. -/
theorem c8_witness :
    canonicalMIMEHeaderKey (gs "foo") = canonicalMIMEHeaderKey (gs "FOO") ∧
    Header.values [(gs "Foo", [gs "v"])] (gs "foo") =
      Header.values [(gs "Foo", [gs "v"])] (gs "FOO") :=
  ⟨by decide, c8_header_multimap.2.2.2 [(gs "Foo", [gs "v"])] (gs "foo") (gs "FOO") (by decide)⟩

/-- Claim C10 (corrected): for a header map without duplicate keys, the write
path emits exactly one broker header per map key; for a key stored in MIME
canonical form the emitted value is the first stored value, every further
value being dropped.  (For a key not in canonical form the emitted value is
the first value of the canonical entry — empty when that entry is absent —
see the counterexample.) -/
theorem c10_marshal_first_value (h : Header) (k : GoStr) (vs : List GoStr)
    (hnd : (h.map Prod.fst).Nodup) (hget : lookupKey h k = some vs)
    (hcanon : canonicalMIMEHeaderKey k = k) :
    (marshalHeaders h).filter (fun p => p.1 == k) = [(k, vs.headD [])] := by
  have hfil : h.filter (fun p => p.1 == k) = [(k, vs)] :=
    filter_eq_of_lookup_nodup h k vs hnd hget
  have hmap :
      (marshalHeaders h).filter (fun p => p.1 == k) =
        (h.filter (fun p => p.1 == k)).map (fun p => (p.1, Header.get h p.1)) := by
    rw [marshalHeaders, List.filter_map]
    rfl
  rw [hmap, hfil]
  have hgetv : Header.get h k = vs.headD [] := by
    cases vs with
    | nil => simp [Header.get, hcanon, hget]
    | cons v rest => simp [Header.get, hcanon, hget]
  simp [hgetv]

/-- Claim C10 counterexample: for the direct map entry `foo -> [a, b]` (key
not in canonical form) the write path emits the header `(foo, "")`, not the
first value `a` — the emitted value is the canonical entry's first value. -/
theorem c10_counterexample :
    marshalHeaders [(gs "foo", [gs "a", gs "b"])] = [(gs "foo", [])] ∧
    gs "a" ≠ ([] : GoStr) :=
  ⟨rfl, by decide⟩

/-- Claim C10 witness: the canonical entry `Foo -> [a, b]` is marshalled to
the single header `(Foo, a)`, dropping `b`. -/
theorem c10_witness :
    ([(gs "Foo", [gs "a", gs "b"])] : Header).map Prod.fst = [gs "Foo"] ∧
    (marshalHeaders [(gs "Foo", [gs "a", gs "b"])]).filter (fun p => p.1 == gs "Foo") =
      [(gs "Foo", gs "a")] :=
  ⟨rfl,
    c10_marshal_first_value [(gs "Foo", [gs "a", gs "b"])] (gs "Foo") [gs "a", gs "b"]
      (by decide) (by decide) (by decide)⟩

/-- Claim C5 (confirmed): Async Write and WriteBatch return nil without
consulting the broker outcome, surfacing the per-record outcomes only
through the completion-callback trace; Sync WriteBatch returns the first
encountered error with an accepted count of 0 when any record is rejected,
and the full message count when every record is acknowledged. -/
theorem c5_writer_semantics (ack : Message → Option Err) (m : Message) (ms : List Message) :
    (asyncWrite ack m).1 = none ∧
    (asyncWriteBatch ack ms).1 = (0, none) ∧
    (asyncWriteBatch ack ms).2 = ms.map (fun x => (x, ack x)) ∧
    (∀ e, firstErr (ms.map ack) = some e → syncWriteBatch ack ms = (0, some e)) ∧
    (firstErr (ms.map ack) = none → syncWriteBatch ack ms = (ms.length, none)) := by
  refine ⟨rfl, rfl, rfl, ?_, ?_⟩
  · intro e he
    simp [syncWriteBatch, he]
  · intro he
    simp [syncWriteBatch, he]

/-- Claim C5 witness: five messages of which the third is rejected — the
sync writer returns the rejection with accepted count 0, the async writer
returns nil. -/
theorem c5_witness :
    firstErr (fiveMessages.map ackRejectBad) = some (.msg (gs "rejected")) ∧
    syncWriteBatch ackRejectBad fiveMessages = (0, some (.msg (gs "rejected"))) ∧
    (asyncWriteBatch ackRejectBad fiveMessages).1 = (0, none) :=
  ⟨rfl,
    (c5_writer_semantics ackRejectBad emptyMsg fiveMessages).2.2.2.1 (.msg (gs "rejected")) rfl,
    (c5_writer_semantics ackRejectBad emptyMsg fiveMessages).2.1⟩

/-- Claim C3 (corrected): in `writeInTransaction`, a produce failure or a
flush failure after the transaction begins is returned directly with no
abort attempt; the `OperationNotAttempted` commit outcome is returned as-is
with no abort attempt; and only a commit failure other than
`OperationNotAttempted` triggers `AbortBufferedRecords` followed by ending
the transaction in abort mode, the returned error then being the abort
error (or the abort-mode end-transaction outcome), not the original commit
error. -/
theorem c3_tx_abort_semantics (b : TxBroker) :
    (∀ e, b.beginErr = none → firstErr b.produceErrs = some e →
      writeInTransaction b = ([.beginTxn, .produceSync], some e)) ∧
    (∀ e, b.beginErr = none → firstErr b.produceErrs = none → b.flushErr = some e →
      writeInTransaction b = ([.beginTxn, .produceSync, .flush], some e)) ∧
    (b.beginErr = none → firstErr b.produceErrs = none → b.flushErr = none →
      b.commitErr = some .opNotAttempted →
      writeInTransaction b =
        ([.beginTxn, .produceSync, .flush, .endTxnCommit], some .opNotAttempted)) ∧
    (∀ e, b.beginErr = none → firstErr b.produceErrs = none → b.flushErr = none →
      b.commitErr = some e → e ≠ .opNotAttempted →
      TxCall.abortBufferedRecords ∈ (writeInTransaction b).1 ∧
      (writeInTransaction b).2 =
        (match b.abortBufferedErr with
          | some e2 => some e2
          | none => b.endAbortErr) ∧
      (b.abortBufferedErr = none → TxCall.endTxnAbort ∈ (writeInTransaction b).1)) := by
  refine ⟨?_, ?_, ?_, ?_⟩
  · intro e hb hp
    simp [writeInTransaction, hb, hp]
  · intro e hb hp hf
    simp [writeInTransaction, hb, hp, hf]
  · intro hb hp hf hc
    simp [writeInTransaction, hb, hp, hf, hc]
  · intro e hb hp hf hc hne
    cases ha : b.abortBufferedErr with
    | none => simp [writeInTransaction, hb, hp, hf, hc, hne, ha]
    | some e2 => simp [writeInTransaction, hb, hp, hf, hc, hne, ha]

/-- Claim C3 counterexample: a flush failure after the transaction has begun
is returned directly — the call trace contains no `AbortBufferedRecords` and
no abort-mode `EndTransaction`. -/
theorem c3_counterexample :
    writeInTransaction ⟨none, [none], some (.msg (gs "flush failed")), none, none, none⟩ =
      ([.beginTxn, .produceSync, .flush], some (.msg (gs "flush failed"))) ∧
    TxCall.abortBufferedRecords ∉ [TxCall.beginTxn, TxCall.produceSync, TxCall.flush] :=
  ⟨rfl, by decide⟩

/-- Claim C3 witness: a commit failure other than OperationNotAttempted, with
a successful abort, makes the trace contain the abort calls and returns the
abort outcome. -/
theorem c3_witness :
    (⟨none, [none], none, some (.msg (gs "commit failed")), none, none⟩ : TxBroker).beginErr
      = none ∧
    Err.msg (gs "commit failed") ≠ Err.opNotAttempted ∧
    TxCall.abortBufferedRecords ∈
      (writeInTransaction
        ⟨none, [none], none, some (.msg (gs "commit failed")), none, none⟩).1 :=
  ⟨rfl, by decide,
    ((c3_tx_abort_semantics
        ⟨none, [none], none, some (.msg (gs "commit failed")), none, none⟩).2.2.2
      (.msg (gs "commit failed")) rfl rfl rfl rfl (by decide)).1⟩

/-- Claim C9 (confirmed): the dead-letter interceptor passes successful
records through unchanged; on a handler failure of a record not matched by
the skip predicate it re-publishes exactly one record — the source record
with topic replaced by the configured topic (or the source topic suffixed
with `-dlq`) and an added `Original-Topic` header equal to the source
topic — returning the original handler error, joined with the republish
error when the republish itself fails. -/
theorem c9_dead_letter (produceSync : KRecord → Option Err) (skip : KRecord → Bool)
    (topic : GoStr) (next : KRecord → Option Err) (msg : KRecord) :
    (skip msg = false → next msg = none →
      useDeadLetter produceSync skip topic next msg = (none, [])) ∧
    (∀ err, skip msg = false → next msg = some err →
      (useDeadLetter produceSync skip topic next msg).2 = [dlqRecord topic msg] ∧
      (dlqRecord topic msg).topic = coalesceOrEmpty topic (msg.topic ++ dlqSuffix) ∧
      (originalTopicKey, msg.topic) ∈ (dlqRecord topic msg).headers ∧
      (useDeadLetter produceSync skip topic next msg).1 =
        (match produceSync (dlqRecord topic msg) with
          | some errProduce => some (.joined err errProduce)
          | none => some err)) := by
  constructor
  · intro hskip hnext
    simp [useDeadLetter, hskip, hnext]
  · intro err hskip hnext
    refine ⟨?_, rfl, by simp [dlqRecord], ?_⟩
    · cases hp : produceSync (dlqRecord topic msg) <;>
        simp [useDeadLetter, hskip, hnext, hp]
    · cases hp : produceSync (dlqRecord topic msg) <;>
        simp [useDeadLetter, hskip, hnext, hp]

/-- Claim C9 witness: a failing handler on an `orders` record with no
configured topic republishes once to `orders-dlq` with the
`Original-Topic: orders` header and returns the handler error. -/
theorem c9_witness :
    (fun _ : KRecord => false) (ordersRec 1) = false ∧
    (fun _ : KRecord => some (Err.msg (gs "handler failed"))) (ordersRec 1) =
      some (Err.msg (gs "handler failed")) ∧
    (useDeadLetter (fun _ => none) (fun _ => false) []
        (fun _ => some (.msg (gs "handler failed"))) (ordersRec 1)).2 =
      [dlqRecord [] (ordersRec 1)] ∧
    (dlqRecord [] (ordersRec 1)).topic = gs "orders-dlq" ∧
    (useDeadLetter (fun _ => none) (fun _ => false) []
        (fun _ => some (.msg (gs "handler failed"))) (ordersRec 1)).1 =
      some (.msg (gs "handler failed")) :=
  ⟨rfl, rfl,
    ((c9_dead_letter (fun _ => none) (fun _ => false) []
        (fun _ => some (.msg (gs "handler failed"))) (ordersRec 1)).2
      (.msg (gs "handler failed")) rfl rfl).1,
    by decide,
    ((c9_dead_letter (fun _ => none) (fun _ => false) []
        (fun _ => some (.msg (gs "handler failed"))) (ordersRec 1)).2
      (.msg (gs "handler failed")) rfl rfl).2.2.2⟩

/-- Claim C7 (corrected): the recover interceptor never lets a panic
propagate, but it does not convert it into an error either: a panic of the
wrapped handler is logged and the interceptor returns a nil error — the
panic is swallowed as success.  Normal returns pass through unchanged. -/
theorem c7_recover_swallows_panics (next : Message → HandlerOutcome) (m : Message) :
    (∀ e, next m = .ok e → recoverInterceptor next m = (.ok e, [])) ∧
    (∀ v, next m = .panicked v →
      recoverInterceptor next m = (.ok none, [⟨gs "ERROR", gs "panic recovered"⟩])) := by
  constructor
  · intro e he
    simp [recoverInterceptor, he]
  · intro v hv
    simp [recoverInterceptor, hv]

/-- Claim C7 counterexample: a handler panicking with `boom` is recovered
into a successful (nil-error) return, not into a processing error. -/
theorem c7_counterexample :
    (recoverInterceptor (fun _ => .panicked (gs "boom")) emptyMsg).1 = .ok none ∧
    HandlerOutcome.ok none ≠ HandlerOutcome.ok (some (Err.msg (gs "boom"))) :=
  ⟨rfl, by decide⟩

/-- Claim C7 witness: the panic branch of the recover interceptor at a
concrete panicking handler. -/
theorem c7_witness :
    (fun _ : Message => HandlerOutcome.panicked (gs "x")) emptyMsg =
      HandlerOutcome.panicked (gs "x") ∧
    recoverInterceptor (fun _ => .panicked (gs "x")) emptyMsg =
      (.ok none, [⟨gs "ERROR", gs "panic recovered"⟩]) :=
  ⟨rfl,
    (c7_recover_swallows_panics (fun _ => .panicked (gs "x")) emptyMsg).2 (gs "x") rfl⟩

/-- Register of a fresh topic stores the handler at the end of the map and
leaves the lifecycle flags untouched, whatever the group option and the
group-client outcome. -/
theorem register_fresh_state {H : Type} (s0 : MgrState H) (name : GoStr) (h1 : H)
    (g1 : ConsumerGroup) (e1 : Option Err)
    (hs : s0.alreadyStarted = false) (hc : s0.isClosed = false)
    (hnew : lookupKey s0.topicHandlerMap name = none) :
    (register s0 name h1 g1 e1).2.topicHandlerMap = s0.topicHandlerMap ++ [(name, h1)] ∧
    (register s0 name h1 g1 e1).2.alreadyStarted = false ∧
    (register s0 name h1 g1 e1).2.isClosed = false := by
  unfold register
  rw [hs, hc, hnew]
  simp only [Option.isSome_none, Bool.false_eq_true, if_false]
  by_cases hg : g1.IsZero
  · simp [hg, hs, hc]
  · by_cases hmem : name ∈ s0.groupClientTopics
    · simp [hg, hmem, hs, hc]
    · cases e1 with
      | none => simp [hg, hmem, hs, hc]
      | some e => simp [hg, hmem, hs, hc]

/-- Register with an already-stored topic fails with `ErrAlreadyRegistered`
and returns the state unchanged. -/
theorem register_duplicate {H : Type} (s : MgrState H) (name : GoStr) (h2 : H)
    (g : ConsumerGroup) (e : Option Err) (hs : s.alreadyStarted = false)
    (hc : s.isClosed = false) (hdup : (lookupKey s.topicHandlerMap name).isSome = true) :
    register s name h2 g e = (some .alreadyRegistered, s) := by
  unfold register
  rw [hs, hc, hdup]
  simp

/-- Claim C6 (confirmed): registering a fresh topic stores its handler, and
a second Register call for the same topic fails with the distinguishable
`ErrAlreadyRegistered`, leaving the state — in particular the first
handler — unchanged. -/
theorem c6_no_silent_overwrite {H : Type} (s0 : MgrState H) (name : GoStr) (h1 h2 : H)
    (g1 g2 : ConsumerGroup) (e1 e2 : Option Err)
    (hs : s0.alreadyStarted = false) (hc : s0.isClosed = false)
    (hnew : lookupKey s0.topicHandlerMap name = none) :
    lookupKey (register s0 name h1 g1 e1).2.topicHandlerMap name = some h1 ∧
    register (register s0 name h1 g1 e1).2 name h2 g2 e2 =
      (some .alreadyRegistered, (register s0 name h1 g1 e1).2) ∧
    lookupKey (register (register s0 name h1 g1 e1).2 name h2 g2 e2).2.topicHandlerMap name
      = some h1 := by
  obtain ⟨hmap, hstarted, hclosed⟩ := register_fresh_state s0 name h1 g1 e1 hs hc hnew
  have hlook : lookupKey (register s0 name h1 g1 e1).2.topicHandlerMap name = some h1 := by
    rw [hmap]
    exact lookupKey_append_fresh s0.topicHandlerMap name h1 hnew
  have hsecond : register (register s0 name h1 g1 e1).2 name h2 g2 e2 =
      (some .alreadyRegistered, (register s0 name h1 g1 e1).2) :=
    register_duplicate _ name h2 g2 e2 hstarted hclosed (by rw [hlook]; rfl)
  refine ⟨hlook, hsecond, ?_⟩
  rw [hsecond]
  exact hlook

/-- Claim C6 witness: the duplicate-registration law at a concrete manager
state with handlers numbered 1 and 2 for topic `orders`. -/
theorem c6_witness :
    (⟨[], [], false, false⟩ : MgrState Nat).alreadyStarted = false ∧
    register (register ⟨[], [], false, false⟩ (gs "orders") 1 ⟨[], [], [], []⟩ none).2
        (gs "orders") 2 ⟨[], [], [], []⟩ none =
      (some .alreadyRegistered,
        (register ⟨[], [], false, false⟩ (gs "orders") 1 ⟨[], [], [], []⟩ none).2) ∧
    lookupKey
        (register (register ⟨[], [], false, false⟩ (gs "orders") 1 ⟨[], [], [], []⟩ none).2
          (gs "orders") 2 ⟨[], [], [], []⟩ none).2.topicHandlerMap (gs "orders") = some 1 :=
  ⟨rfl,
    (c6_no_silent_overwrite ⟨[], [], false, false⟩ (gs "orders") 1 2 ⟨[], [], [], []⟩
      ⟨[], [], [], []⟩ none none rfl rfl rfl).2.1,
    (c6_no_silent_overwrite ⟨[], [], false, false⟩ (gs "orders") 1 2 ⟨[], [], [], []⟩
      ⟨[], [], [], []⟩ none none rfl rfl rfl).2.2⟩

/-- Claim C2 (corrected): the reader manager has a single offset-commit
policy, not two: whatever the construction-time options, the per-record
outcomes and the batch, the poller ends a non-empty batch with
`CommitUncommittedOffsets`, which covers every record of the batch; in the
three-record `orders` scenario where the handler errors on the record at
offset 2, the offsets of all three records — the failed one included — are
committed. -/
theorem c2_single_commit_policy (opts : ReaderManagerOptions)
    (handlers : List (GoStr × (KRecord → Option Err))) (batch : List KRecord) :
    (pollBatchIteration opts handlers batch).2 = .commitUncommittedOffsets ∧
    committedRecords (pollBatchIteration opts handlers batch).2 batch = batch ∧
    (pollBatchIteration opts handlersOrders ordersBatch).1 =
      [(ordersRec 1, none), (ordersRec 2, some (.msg (gs "handler failed"))),
        (ordersRec 3, none)] ∧
    committedRecords (pollBatchIteration opts handlersOrders ordersBatch).2 ordersBatch =
      [ordersRec 1, ordersRec 2, ordersRec 3] := by
  refine ⟨rfl, rfl, ?_, rfl⟩
  simp [pollBatchIteration, handlersOrders, ordersBatch, processRecord, ordersRec, lookupKey]

/-- Claim C2 counterexample: in the scenario of a 3-record batch whose
second record fails, the commit performed covers the failed record at
offset 2 and is not a commit of exactly records 1 and 3 — the
commit-records policy claimed by the specification does not exist. -/
theorem c2_counterexample :
    ordersRec 2 ∈
      committedRecords (pollBatchIteration defaultReaderOpts handlersOrders ordersBatch).2
        ordersBatch ∧
    committedRecords (pollBatchIteration defaultReaderOpts handlersOrders ordersBatch).2
        ordersBatch ≠ [ordersRec 1, ordersRec 3] := by
  constructor
  · show ordersRec 2 ∈ ordersBatch
    decide
  · show ordersBatch ≠ [ordersRec 1, ordersRec 3]
    decide

-- -- Lemmas on the batch dispatch machine --

/-- Every step of the batch machine permutes the records held across the
pending, running and done compartments. -/
theorem pollStep_mass {R : Type} {s t : PollState R} (h : PollStep s t) :
    (t.pending ++ t.running ++ t.done).Perm (s.pending ++ s.running ++ s.done) := by
  cases h with
  | dispatch r rest running done =>
    show (rest ++ (running ++ [r]) ++ done).Perm ((r :: rest) ++ running ++ done)
    refine List.Perm.append_right done ?_
    have h1 : rest ++ (running ++ [r]) = (rest ++ running) ++ [r] :=
      (List.append_assoc rest running [r]).symm
    rw [h1]
    exact List.perm_append_singleton r (rest ++ running)
  | complete l1 r l2 pending done =>
    show (pending ++ (l1 ++ l2) ++ (done ++ [r])).Perm (pending ++ (l1 ++ r :: l2) ++ done)
    have h1 : pending ++ (l1 ++ l2) ++ (done ++ [r]) =
        (pending ++ (l1 ++ l2) ++ done) ++ [r] :=
      (List.append_assoc (pending ++ (l1 ++ l2)) done [r]).symm
    have p1 : ((pending ++ (l1 ++ l2) ++ done) ++ [r]).Perm
        (r :: (pending ++ (l1 ++ l2) ++ done)) :=
      List.perm_append_singleton r (pending ++ (l1 ++ l2) ++ done)
    have p2 : (pending ++ (l1 ++ r :: l2)).Perm (r :: (pending ++ (l1 ++ l2))) :=
      (List.Perm.append_left pending List.perm_middle).trans List.perm_middle
    have p3 : (pending ++ (l1 ++ r :: l2) ++ done).Perm
        (r :: (pending ++ (l1 ++ l2) ++ done)) :=
      List.Perm.append_right done p2
    rw [h1]
    exact p1.trans p3.symm
  | commit done =>
    exact List.Perm.refl _

/-- In every reachable state of the batch machine, the records across the
three compartments are exactly those of the polled batch. -/
theorem pollReach_mass {R : Type} (batch : List R) (s : PollState R)
    (h : Relation.ReflTransGen PollStep (initPollState batch) s) :
    (s.pending ++ s.running ++ s.done).Perm batch := by
  induction h with
  | refl => simp [initPollState]
  | tail hst hstep ih => exact (pollStep_mass hstep).trans ih

/-- A committed reachable state has no pending and no running record: the
only step producing `committed = true` requires the in-flight counter to be
zero. -/
theorem pollReach_committed {R : Type} (batch : List R) (s : PollState R)
    (h : Relation.ReflTransGen PollStep (initPollState batch) s)
    (hc : s.committed = true) : s.pending = [] ∧ s.running = [] := by
  induction h with
  | refl => simp [initPollState] at hc
  | tail hst hstep ih => cases hstep <;> simp_all

/-- Claim C1 (confirmed): in every interleaving of the poller and worker
steps of one polled batch, a state in which the batch's offsets have been
committed has an empty in-flight set and a done list holding every record
of the batch — the commit barrier guarantees offset commit happens only
after every dispatched record of the batch has completed or been skipped. -/
theorem c1_commit_barrier {R : Type} (batch : List R) (s : PollState R)
    (hreach : Relation.ReflTransGen PollStep (initPollState batch) s)
    (hcommit : s.committed = true) :
    s.pending = [] ∧ s.running = [] ∧ s.done.Perm batch := by
  obtain ⟨hp, hr⟩ := pollReach_committed batch s hreach hcommit
  have hm := pollReach_mass batch s hreach
  rw [hp, hr] at hm
  simp at hm
  exact ⟨hp, hr, hm⟩

/-- Claim C1 witness: a concrete interleaving for the two-record batch
[1, 2] — dispatch both, complete both, then commit — reaches a committed
state whose done list is a permutation of the batch. -/
theorem c1_witness :
    Relation.ReflTransGen PollStep (initPollState [1, 2])
      (⟨[], [], [1, 2], true⟩ : PollState Nat) ∧
    List.Perm (PollState.done (⟨[], [], [1, 2], true⟩ : PollState Nat)) [1, 2] := by
  have hchain : Relation.ReflTransGen PollStep (initPollState [1, 2])
      (⟨[], [], [1, 2], true⟩ : PollState Nat) := by
    refine Relation.ReflTransGen.head (PollStep.dispatch 1 [2] [] []) ?_
    refine Relation.ReflTransGen.head (PollStep.dispatch 2 [] [1] []) ?_
    refine Relation.ReflTransGen.head (PollStep.complete [] 1 [2] [] []) ?_
    refine Relation.ReflTransGen.head (PollStep.complete [] 2 [] [] [1]) ?_
    exact Relation.ReflTransGen.single (PollStep.commit [1, 2])
  exact ⟨hchain, (c1_commit_barrier [1, 2] _ hchain rfl).2.2⟩

end Geck
